import Mathlib

/-!
Verification development for the terminal context-display renderer of
nvim-hoverfloat (`scripts/context_display.py`).

The renderer is shallowly embedded as follows.  Each `draw_*` method of
`ContextWindow` is translated into a Lean function that returns the list of
cursor-addressed terminal operations (`Op`) the Python code emits via
`print`: a visible-text write at a (row, column) position, a
clear-to-end-of-line, or a whole-line clear.  Color/styling escape codes
(`NeovimColors.*`) change no screen cell and carry no claim-relevant
content, and the `save_cursor`/`restore_cursor` bracket moves the cursor
without writing, so those prints are not reflected as `Op`s.  A screen is a
`height`-long list of `width`-long rows of characters, and `applyOp`
executes one operation on it; columns and rows are 1-indexed exactly as in
the ANSI sequences the source builds.
-/

set_option autoImplicit false

/-- One terminal operation emitted by the renderer.
`write r c s` puts the characters of `s` at row `r` starting in column `c`
(the cursor having been positioned by `ANSIControl.cursor_to(r, c)`);
`clearFrom r c` is `clear_line_from_cursor` with the cursor at `(r, c)`;
`clearLine r` is `clear_line` with the cursor at `(r, 1)` (the source only
ever uses it at column 1, so it blanks the whole row). -/
inductive Op where
  | write (row col : Nat) (text : String)
  | clearFrom (row col : Nat)
  | clearLine (row : Nat)
deriving Repr, DecidableEq

/-- Row addressed by an operation. -/
def opRow : Op → Nat
  | .write r _ _ => r
  | .clearFrom r _ => r
  | .clearLine r => r

/-- `self.width` in `ContextWindow.__init__`. -/
def width : Nat := 80

/-- `self.height` in `ContextWindow.__init__`. -/
def height : Nat := 25

/-- `self.sections['header']`. -/
def sections_header : Nat := 1

/-- `self.sections['file_info']`. -/
def sections_file_info : Nat := 3

/-- `self.sections['hover_start']`. -/
def sections_hover_start : Nat := 5

/-- `self.sections['definition']`. -/
def sections_definition : Nat := 15

/-- `self.sections['references']`. -/
def sections_references : Nat := 17

/-- `self.sections['footer'] = self.height - 1`. -/
def sections_footer : Nat := height - 1

/-- A location dictionary as used for `definition` entries and the elements
of `references`: a Python dict whose recognized keys are `file`, `line`,
`col`, each possibly absent (`dict.get` with a default is modelled by
`Option.getD`). -/
structure LocDict where
  file : Option String := none
  line : Option Int := none
  col : Option Int := none
deriving Repr, DecidableEq

/-- Python truthiness of the dict: `if not definition` takes the early
return exactly when the dict is empty. -/
def LocDict.isEmpty (d : LocDict) : Bool :=
  d.file.isNone && d.line.isNone && d.col.isNone

/-- The `data` object of a `context_update` message (the ContextSnapshot).
Recognized keys of the Python dict, each possibly absent. -/
structure Snapshot where
  file : Option String := none
  line : Option Int := none
  col : Option Int := none
  hover : Option (List String) := none
  definition : Option LocDict := none
  references : Option (List LocDict) := none
  references_count : Option Int := none
deriving Repr, DecidableEq

/-- `ContextWindow.draw_border(row, width)`: writes `├`, `style * (width-2)`,
`┤` at column 1 of `row`. -/
def draw_border (row w : Nat) : List Op :=
  [Op.write row 1 ("├" ++ String.mk (List.replicate (w - 2) '─') ++ "┤")]

/-- `ContextWindow.draw_header`: the fixed title, then
`width - 22 - len(timestamp) - 1` spaces, then `[timestamp]`, on the header
row, followed by the border row below it.  The live timestamp string is a
parameter. -/
def draw_header (time_str : String) : List Op :=
  let title := "🔍 NEOVIM LSP CONTEXT"
  let spaces_needed := width - 22 - time_str.length - 1
  [Op.write sections_header 1 title,
   Op.write sections_header (1 + title.length) (String.mk (List.replicate spaces_needed ' ')),
   Op.write sections_header (1 + title.length + spaces_needed) ("[" ++ time_str ++ "]")]
  ++ draw_border (sections_header + 1) width

/-- `ContextWindow.draw_file_info(data)`. -/
def draw_file_info (data : Snapshot) : List Op :=
  let file_name := data.file.getD "Unknown"
  let line := data.line.getD 0
  let col := data.col.getD 0
  let t1 := "📄 Current File: "
  let t3 := " (Line " ++ toString line ++ ", Col " ++ toString col ++ ")"
  [Op.write sections_file_info 1 t1,
   Op.write sections_file_info (1 + t1.length) file_name,
   Op.write sections_file_info (1 + t1.length + file_name.length) t3,
   Op.clearFrom sections_file_info (1 + t1.length + file_name.length + t3.length)]

/-- The content loop of `draw_hover_info`:
`for i, line in enumerate(hover_data[:max_lines])` writes
`line[:width - 4]` at column 3 of row `start_row + 1 + i` and clears the
rest of the row.  `i` is the enumeration index. -/
def hover_line_ops (start_row w : Nat) (i : Nat) : List String → List Op
  | [] => []
  | line :: rest =>
    Op.write (start_row + 1 + i) 3 (line.take (w - 4)) ::
    Op.clearFrom (start_row + 1 + i) (3 + (line.take (w - 4)).length) ::
    hover_line_ops start_row w (i + 1) rest

/-- `ContextWindow.draw_hover_info(hover_data)`: section title, up to
`max_lines` truncated content lines, then
`for i in range(len(hover_data), max_lines)` clears each remaining row of
the section. -/
def draw_hover_info (hover_data : List String) : List Op :=
  let start_row := sections_hover_start
  let title := "📖 Documentation:"
  let max_lines := sections_definition - start_row - 2
  ([Op.write start_row 1 title, Op.clearFrom start_row (1 + title.length)]
   ++ hover_line_ops start_row width 0 (hover_data.take max_lines))
  ++ (List.range' hover_data.length (max_lines - hover_data.length)).map
      (fun i => Op.clearLine (start_row + 1 + i))

/-- `ContextWindow.draw_definition_info(definition)`: early return on a
falsy (empty) dict, else title and `f"{file_name}:{line}:{col}"` on the
definition row. -/
def draw_definition_info (definition : LocDict) : List Op :=
  if definition.isEmpty then []
  else
    let t1 := "📍 Defined in: "
    let loc := definition.file.getD "Unknown" ++ ":" ++ toString (definition.line.getD 0)
               ++ ":" ++ toString (definition.col.getD 0)
    [Op.write sections_definition 1 t1,
     Op.write sections_definition (1 + t1.length) loc,
     Op.clearFrom sections_definition (1 + t1.length + loc.length)]

/-- The entry loop of `draw_references_info`:
`for i, ref in enumerate(references[:max_lines])` writes the bullet at
column 3 and `f"{file_name}:{line}"` right after it (column 5), then clears
the rest of the row. -/
def ref_entry_ops (start_row : Nat) (i : Nat) : List LocDict → List Op
  | [] => []
  | ref :: rest =>
    let file_name := ref.file.getD "Unknown"
    let line := ref.line.getD 0
    let entry := file_name ++ ":" ++ toString line
    Op.write (start_row + 1 + i) 3 "• " ::
    Op.write (start_row + 1 + i) 5 entry ::
    Op.clearFrom (start_row + 1 + i) (5 + entry.length) ::
    ref_entry_ops start_row (i + 1) rest

/-- `ContextWindow.draw_references_info(references, count)`: title line with
pluralized count, up to `max_lines` entries, and the
`f"... and {remaining} more"` summary line exactly when
`len(references) > max_lines`.  Note the source has no clearing loop for
leftover entry rows here. -/
def draw_references_info (references : List LocDict) (count : Int) : List Op :=
  let start_row := sections_references
  let ref_text := if count = 1 then "reference" else "references"
  let title := "🔗 References (" ++ toString count ++ " " ++ ref_text ++ " found):"
  let max_lines := sections_footer - start_row - 2
  ([Op.write start_row 1 title, Op.clearFrom start_row (1 + title.length)]
   ++ ref_entry_ops start_row 0 (references.take max_lines))
  ++ (if references.length > max_lines then
        let remaining := references.length - max_lines
        let more := "... and " ++ toString remaining ++ " more"
        [Op.write (start_row + max_lines + 1) 3 more,
         Op.clearFrom (start_row + max_lines + 1) (3 + more.length)]
      else [])

/-- The fixed help string of `draw_footer`. -/
def footer_text : String :=
  " Ctrl+C to exit • Updates automatically as you move cursor in Neovim "

/-- `ContextWindow.draw_footer`: `padding = (width - len(footer_text)) // 2`
spaces on each side of the help string, written at column 1 of the footer
row. -/
def draw_footer : List Op :=
  let padding := (width - footer_text.length) / 2
  [Op.write sections_footer 1
    (String.mk (List.replicate padding ' ') ++ footer_text
     ++ String.mk (List.replicate padding ' '))]

/-- The else-branch of the hover conditional in `update_display`:
`for i in range(self.sections['hover_start'], self.sections['definition'])`
clears every row of the hover region. -/
def clear_hover_region : List Op :=
  (List.range' sections_hover_start (sections_definition - sections_hover_start)).map
    Op.clearLine

/-- `ContextWindow.update_display(data)`: header, file info, hover (drawn
when present and truthy, whole region cleared otherwise), definition (only
when the key is present), references (only when the key is present, with
`count = data.get('references_count', len(data['references']))`), footer.
The `save_cursor`/`restore_cursor` bracket and the final flush write no
cells and are omitted. -/
def update_display (data : Snapshot) (time_str : String) : List Op :=
  draw_header time_str
  ++ draw_file_info data
  ++ (match data.hover with
      | some h => if h.isEmpty then clear_hover_region else draw_hover_info h
      | none => clear_hover_region)
  ++ (match data.definition with
      | some d => draw_definition_info d
      | none => [])
  ++ (match data.references with
      | some refs => draw_references_info refs ((data.references_count).getD (refs.length : Int))
      | none => [])
  ++ draw_footer

/-! ### Screen semantics for the operations -/

/-- Overwrite characters of a row starting at 1-indexed column `c`;
positions beyond the row's physical width are clipped (`List.set` out of
range is the identity). -/
def writeRow : List Char → Nat → List Char → List Char
  | row, _, [] => row
  | row, c, ch :: rest => writeRow (row.set (c - 1) ch) (c + 1) rest

/-- A blank (space-filled) screen row. -/
def blank_row : List Char := List.replicate width ' '

/-- Execute one operation on a screen (list of rows, row 1 first). -/
def applyOp (scr : List (List Char)) : Op → List (List Char)
  | .write r c s => scr.set (r - 1) (writeRow (scr.getD (r - 1) []) c s.data)
  | .clearFrom r c =>
      scr.set (r - 1) (writeRow (scr.getD (r - 1) []) c (List.replicate (width + 1 - c) ' '))
  | .clearLine r => scr.set (r - 1) blank_row

/-- Execute a list of operations left to right. -/
def applyOps (scr : List (List Char)) (ops : List Op) : List (List Char) :=
  ops.foldl applyOp scr

/-- The all-blank screen the renderer starts from (after
`setup_terminal`'s `clear_screen`). -/
def blank_screen : List (List Char) := List.replicate height blank_row

/-- 1-indexed row read-back. -/
def rowOf (scr : List (List Char)) (r : Nat) : List Char := scr.getD (r - 1) []

/-- The text an operation writes at row `r`, column `c`, if any. -/
def opWriteAt (r c : Nat) : Op → Option String
  | .write r' c' s => if r' = r ∧ c' = c then some s else none
  | _ => none

/-- The text an operation writes at column `c` (of any row), if any. -/
def opWriteAtCol (c : Nat) : Op → Option String
  | .write _ c' s => if c' = c then some s else none
  | _ => none

/-- All texts written by `ops` at exactly row `r`, column `c`, in emission
order. -/
def writesAt (ops : List Op) (r c : Nat) : List String :=
  ops.filterMap (opWriteAt r c)

/-- All texts written by `ops` at column `c` of any row, in emission
order. -/
def writesAtCol (ops : List Op) (c : Nat) : List String :=
  ops.filterMap (opWriteAtCol c)

/-! ### The update-channel listener (`start_socket_server` inner loop) -/

/-- Decode outcome of one `conn.recv` chunk, as classified by the Python
decode path `json.loads(data.decode('utf-8'))` followed by
`message.get('type')`:
* `bytesNotUtf8` — `data.decode('utf-8')` raises `UnicodeDecodeError`;
* `textNotJson` — the bytes are UTF-8 but `json.loads` raises
  `json.JSONDecodeError`;
* `jsonNonObject` — `json.loads` returns a non-dict value, so
  `message.get` raises `AttributeError`;
* `jsonObj t d` — a JSON object with optional `type` field `t` and
  optional `data` field `d` (a `data` value that is a dict). -/
inductive RecvMsg where
  | bytesNotUtf8
  | textNotJson
  | jsonNonObject
  | jsonObj (type_field : Option String) (data_field : Option Snapshot)
deriving Repr, DecidableEq

/-- Outcome of handling one message inside the per-connection loop:
either the loop continues (with the possibly replaced held snapshot, and
whether a redraw was triggered), or an exception escaped the
`try/except json.JSONDecodeError` — which closes the connection (the
`with conn` block) and terminates the listener loop, since the enclosing
handler catches only `OSError`. -/
inductive MsgStep where
  | continueLoop (held : Snapshot) (redrawn : Bool)
  | uncaught
deriving Repr, DecidableEq

/-- One iteration of the message loop in `start_socket_server`:
`try: message = json.loads(data.decode('utf-8')); if message.get('type')
== 'context_update': self.current_data = message.get('data', {});
self.update_display(...) except json.JSONDecodeError: continue`.
Only `json.JSONDecodeError` is caught: `UnicodeDecodeError` (not a
subclass of it) and `AttributeError` escape. -/
def handle_message (held : Snapshot) : RecvMsg → MsgStep
  | .bytesNotUtf8 => .uncaught
  | .textNotJson => .continueLoop held false
  | .jsonNonObject => .uncaught
  | .jsonObj t d =>
      if t = some "context_update" then .continueLoop (d.getD {}) true
      else .continueLoop held false

/-- Process the successive messages of one connection.  `some s` means every
message was handled and the connection ended normally with `s` as the held
snapshot; `none` means an uncaught exception killed the listener loop. -/
def serve_conn (held : Snapshot) : List RecvMsg → Option Snapshot
  | [] => some held
  | m :: ms =>
      match handle_message held m with
      | .continueLoop h _ => serve_conn h ms
      | .uncaught => none

/-! ### Session lifecycle (`run`, `cleanup_terminal`, `main`) -/

/-- Side-effecting terminal/resource steps of the lifecycle, in the order
the source performs them. -/
inductive TermAction where
  | altScreen
  | hideCursor
  | clearScreenAct
  | setBackground
  | flushOut
  | showCursor
  | normalScreen
  | resetStyle
  | closeSocket
  | unlinkSocketPath
deriving Repr, DecidableEq

/-- `ContextWindow.setup_terminal`. -/
def setup_terminal : List TermAction :=
  [.altScreen, .hideCursor, .clearScreenAct, .setBackground, .flushOut]

/-- `ContextWindow.cleanup_terminal`. -/
def cleanup_terminal : List TermAction :=
  [.showCursor, .normalScreen, .resetStyle, .flushOut]

/-- Why `ContextWindow.run` leaves its `try` body:
`interrupt` — `KeyboardInterrupt` raised in the `time.sleep` main loop and
caught by the inner `except KeyboardInterrupt: pass`;
`setupError` — an exception raised during `setup_terminal`/static drawing,
before the main loop;
`runtimeError` — any other unexpected exception in the run body. -/
inductive ExitTrigger where
  | interrupt
  | setupError
  | runtimeError
deriving Repr, DecidableEq

/-- The `finally` block of `run`: `cleanup_terminal()`, `self.socket.close()`
when a socket object was created (by the listener thread), and the
`os.unlink(self.socket_path)` call (whose `OSError` is swallowed). -/
def run_teardown (socketCreated : Bool) : List TermAction :=
  cleanup_terminal
  ++ (if socketCreated then [TermAction.closeSocket] else [])
  ++ [TermAction.unlinkSocketPath]

/-- `ContextWindow.run`: the terminal/resource actions performed on each way
out of the `try` body, and whether an exception propagates out of `run`
afterwards.  On `setupError` the setup actions are partial, modelled as the
empty prefix; the `finally` block runs in every case. -/
def run (trigger : ExitTrigger) (socketCreated : Bool) : List TermAction × Bool :=
  match trigger with
  | .interrupt => (setup_terminal ++ run_teardown socketCreated, false)
  | .setupError => (run_teardown socketCreated, true)
  | .runtimeError => (setup_terminal ++ run_teardown socketCreated, true)

/-- `main`: `try: window.run() except Exception as e: print(f"Error: {e}",
file=sys.stderr); sys.exit(1)`.  Result is the process exit code and
whether an error message was written to the diagnostic stream; falling off
the end of `main` exits with code 0. -/
def main_exit (trigger : ExitTrigger) (socketCreated : Bool) : Nat × Bool :=
  if (run trigger socketCreated).2 then (1, true) else (0, false)

/-! ### Concrete snapshots for the stale-content scenario -/

/-- First snapshot of the stale-row scenario: two references. -/
def snap_two_refs : Snapshot :=
  { file := some "a.go", line := some 10, col := some 4,
    references := some [{ file := some "b.go", line := some 5 },
                        { file := some "c.go", line := some 7 }] }

/-- Second snapshot: identical but only the first reference. -/
def snap_one_ref : Snapshot :=
  { file := some "a.go", line := some 10, col := some 4,
    references := some [{ file := some "b.go", line := some 5 }] }

/-- Screen after rendering `snap_two_refs` on a blank screen. -/
def screen_after_first : List (List Char) :=
  applyOps blank_screen (update_display snap_two_refs "12:00:00")

/-- Screen after then rendering `snap_one_ref` on top. -/
def screen_after_second : List (List Char) :=
  applyOps screen_after_first (update_display snap_one_ref "12:00:00")

/-! ### Generic lemmas about the screen semantics and write extraction -/

theorem getD_set_ne {α : Type} (l : List α) (i j : Nat) (a d : α) (h : i ≠ j) :
    (l.set i a).getD j d = l.getD j d := by
  simp [List.getD, List.getElem?_set_ne h]

theorem rowOf_applyOp_ne (scr : List (List Char)) (op : Op) (r : Nat)
    (h : opRow op ≠ r) (hr : 1 ≤ r) (h1 : 1 ≤ opRow op) :
    rowOf (applyOp scr op) r = rowOf scr r := by
  cases op with
  | write r' c s =>
      simp only [opRow] at h h1
      exact getD_set_ne _ _ _ _ _ (by omega)
  | clearFrom r' c =>
      simp only [opRow] at h h1
      exact getD_set_ne _ _ _ _ _ (by omega)
  | clearLine r' =>
      simp only [opRow] at h h1
      exact getD_set_ne _ _ _ _ _ (by omega)

theorem rowOf_applyOps_ne (ops : List Op) (scr : List (List Char)) (r : Nat)
    (h : ∀ op ∈ ops, opRow op ≠ r ∧ 1 ≤ opRow op) (hr : 1 ≤ r) :
    rowOf (applyOps scr ops) r = rowOf scr r := by
  induction ops generalizing scr with
  | nil => rfl
  | cons a l ih =>
      have ha := h a (List.mem_cons_self a l)
      calc rowOf (applyOps (applyOp scr a) l) r
          = rowOf (applyOp scr a) r :=
            ih (applyOp scr a) (fun op hop => h op (List.mem_cons_of_mem a hop))
        _ = rowOf scr r := rowOf_applyOp_ne scr a r ha.1 hr ha.2

theorem writesAt_append (o₁ o₂ : List Op) (r c : Nat) :
    writesAt (o₁ ++ o₂) r c = writesAt o₁ r c ++ writesAt o₂ r c :=
  List.filterMap_append o₁ o₂ _

theorem writesAtCol_append (o₁ o₂ : List Op) (c : Nat) :
    writesAtCol (o₁ ++ o₂) c = writesAtCol o₁ c ++ writesAtCol o₂ c :=
  List.filterMap_append o₁ o₂ _

theorem writesAt_eq_nil_of_forall (ops : List Op) (r c : Nat)
    (h : ∀ op ∈ ops, opWriteAt r c op = none) : writesAt ops r c = [] :=
  List.filterMap_eq_nil_iff.mpr h

theorem writesAt_map_clearLine (l : List Nat) (g : Nat → Nat) (r c : Nat) :
    writesAt (l.map (fun i => Op.clearLine (g i))) r c = [] := by
  apply writesAt_eq_nil_of_forall
  intro op hop
  obtain ⟨a, _, rfl⟩ := List.mem_map.mp hop
  rfl

theorem writesAt_clear_hover_region (r c : Nat) :
    writesAt clear_hover_region r c = [] :=
  writesAt_map_clearLine _ _ r c

/-! ### Membership shape of the renderer's emission loops -/

theorem ref_entry_ops_row_bound (ls : List LocDict) (sr : Nat) :
    ∀ (i : Nat) (op : Op), op ∈ ref_entry_ops sr i ls →
      sr + 1 + i ≤ opRow op ∧ opRow op < sr + 1 + i + ls.length := by
  induction ls with
  | nil => intro i op hop; simp [ref_entry_ops] at hop
  | cons x t ih =>
      intro i op hop
      simp only [ref_entry_ops, List.mem_cons] at hop
      rcases hop with rfl | rfl | rfl | h
      · simp only [opRow, List.length_cons]; omega
      · simp only [opRow, List.length_cons]; omega
      · simp only [opRow, List.length_cons]; omega
      · have := ih (i + 1) op h
        simp only [List.length_cons]
        omega

theorem ref_entry_ops_write_col (ls : List LocDict) (sr : Nat) :
    ∀ (i r' c' : Nat) (s : String), Op.write r' c' s ∈ ref_entry_ops sr i ls →
      c' = 3 ∨ c' = 5 := by
  induction ls with
  | nil => intro i r' c' s hop; simp [ref_entry_ops] at hop
  | cons x t ih =>
      intro i r' c' s hop
      simp only [ref_entry_ops, List.mem_cons] at hop
      rcases hop with h | h | h | h
      · cases h; left; rfl
      · cases h; right; rfl
      · cases h
      · exact ih (i + 1) r' c' s h

theorem hover_line_ops_row_bound (ls : List String) (sr w : Nat) :
    ∀ (i : Nat) (op : Op), op ∈ hover_line_ops sr w i ls →
      sr + 1 + i ≤ opRow op ∧ opRow op < sr + 1 + i + ls.length := by
  induction ls with
  | nil => intro i op hop; simp [hover_line_ops] at hop
  | cons x t ih =>
      intro i op hop
      simp only [hover_line_ops, List.mem_cons] at hop
      rcases hop with rfl | rfl | h
      · simp only [opRow, List.length_cons]; omega
      · simp only [opRow, List.length_cons]; omega
      · have := ih (i + 1) op h
        simp only [List.length_cons]
        omega

theorem hover_line_ops_write_col (ls : List String) (sr w : Nat) :
    ∀ (i r' c' : Nat) (s : String), Op.write r' c' s ∈ hover_line_ops sr w i ls →
      c' = 3 := by
  induction ls with
  | nil => intro i r' c' s hop; simp [hover_line_ops] at hop
  | cons x t ih =>
      intro i r' c' s hop
      simp only [hover_line_ops, List.mem_cons] at hop
      rcases hop with h | h | h
      · cases h; rfl
      · cases h
      · exact ih (i + 1) r' c' s h

theorem writesAt_ref_entry_ops_col (ls : List LocDict) (sr i r c : Nat)
    (h3 : c ≠ 3) (h5 : c ≠ 5) :
    writesAt (ref_entry_ops sr i ls) r c = [] := by
  apply writesAt_eq_nil_of_forall
  intro op hop
  cases op with
  | write r' c' s =>
      have := ref_entry_ops_write_col ls sr i r' c' s hop
      simp only [opWriteAt]
      rw [if_neg]
      rintro ⟨-, rfl⟩
      rcases this with h | h
      · exact h3 h
      · exact h5 h
  | clearFrom r' c' => rfl
  | clearLine r' => rfl

theorem writesAt_ref_entry_ops_row (ls : List LocDict) (sr i r c : Nat)
    (h : sr + i + ls.length < r) :
    writesAt (ref_entry_ops sr i ls) r c = [] := by
  apply writesAt_eq_nil_of_forall
  intro op hop
  have hb := ref_entry_ops_row_bound ls sr i op hop
  cases op with
  | write r' c' s =>
      simp only [opRow] at hb
      simp only [opWriteAt]
      rw [if_neg]
      rintro ⟨rfl, -⟩
      omega
  | clearFrom r' c' => rfl
  | clearLine r' => rfl

theorem writesAt_hover_line_ops_col (ls : List String) (sr w i r c : Nat) (h3 : c ≠ 3) :
    writesAt (hover_line_ops sr w i ls) r c = [] := by
  apply writesAt_eq_nil_of_forall
  intro op hop
  cases op with
  | write r' c' s =>
      have := hover_line_ops_write_col ls sr w i r' c' s hop
      simp only [opWriteAt]
      rw [if_neg]
      rintro ⟨-, rfl⟩
      exact h3 this
  | clearFrom r' c' => rfl
  | clearLine r' => rfl

theorem writesAtCol_ref_entry_ops (ls : List LocDict) (sr i : Nat) :
    writesAtCol (ref_entry_ops sr i ls) 5
      = ls.map (fun ref => ref.file.getD "Unknown" ++ ":" ++ toString (ref.line.getD 0)) := by
  induction ls generalizing i with
  | nil => rfl
  | cons x t ih =>
      simp only [ref_entry_ops, writesAtCol, List.filterMap_cons, opWriteAtCol, List.map_cons]
      norm_num
      exact ih (i + 1)

theorem writesAtCol_hover_line_ops (ls : List String) (sr w i : Nat) :
    writesAtCol (hover_line_ops sr w i ls) 3 = ls.map (fun line => line.take (w - 4)) := by
  induction ls generalizing i with
  | nil => rfl
  | cons x t ih =>
      simp only [hover_line_ops, writesAtCol, List.filterMap_cons, opWriteAtCol, List.map_cons]
      norm_num
      exact ih (i + 1)

theorem writesAtCol_eq_nil_of_forall (ops : List Op) (c : Nat)
    (h : ∀ op ∈ ops, opWriteAtCol c op = none) : writesAtCol ops c = [] :=
  List.filterMap_eq_nil_iff.mpr h

theorem writesAtCol_map_clearLine (l : List Nat) (g : Nat → Nat) (c : Nat) :
    writesAtCol (l.map (fun i => Op.clearLine (g i))) c = [] := by
  apply writesAtCol_eq_nil_of_forall
  intro op hop
  obtain ⟨a, _, rfl⟩ := List.mem_map.mp hop
  rfl

/-! ### Per-component write extraction -/

theorem writesAt_draw_header_ne (t : String) (r c : Nat)
    (h1 : ¬ sections_header = r) (h2 : ¬ sections_header + 1 = r) :
    writesAt (draw_header t) r c = [] := by
  apply writesAt_eq_nil_of_forall
  intro op hop
  simp only [draw_header, draw_border, List.mem_append, List.mem_cons,
    List.not_mem_nil, or_false] at hop
  rcases hop with (rfl | rfl | rfl) | rfl <;> simp [opWriteAt, h1, h2]

theorem writesAt_draw_file_info_ne (s : Snapshot) (r c : Nat)
    (h : ¬ sections_file_info = r) :
    writesAt (draw_file_info s) r c = [] := by
  apply writesAt_eq_nil_of_forall
  intro op hop
  simp only [draw_file_info, List.mem_cons, List.not_mem_nil, or_false] at hop
  rcases hop with rfl | rfl | rfl | rfl <;> simp [opWriteAt, h]

theorem writesAt_draw_footer_ne (r c : Nat) (h : ¬ sections_footer = r) :
    writesAt draw_footer r c = [] := by
  apply writesAt_eq_nil_of_forall
  intro op hop
  simp only [draw_footer, List.mem_cons, List.not_mem_nil, or_false] at hop
  subst hop
  simp [opWriteAt, h]

theorem writesAt_draw_hover_info_ne (hd : List String) (r c : Nat)
    (hr : ¬ sections_hover_start = r) (hc : c ≠ 3) :
    writesAt (draw_hover_info hd) r c = [] := by
  simp only [draw_hover_info]
  rw [writesAt_append, writesAt_append]
  rw [writesAt_hover_line_ops_col _ _ _ _ _ _ hc, writesAt_map_clearLine]
  simp [writesAt, opWriteAt, hr]

theorem writesAt_draw_definition_info_ne (d : LocDict) (r c : Nat)
    (h : ¬ sections_definition = r) :
    writesAt (draw_definition_info d) r c = [] := by
  by_cases hd : d.isEmpty
  · simp [draw_definition_info, hd, writesAt]
  · apply writesAt_eq_nil_of_forall
    intro op hop
    simp only [draw_definition_info, hd, if_false, Bool.false_eq_true,
      List.mem_cons, List.not_mem_nil, or_false] at hop
    rcases hop with rfl | rfl | rfl <;> simp [opWriteAt, h]

theorem writesAt_draw_references_info_ne (refs : List LocDict) (count : Int) (r c : Nat)
    (hr : ¬ sections_references = r) (h3 : c ≠ 3) (h5 : c ≠ 5) :
    writesAt (draw_references_info refs count) r c = [] := by
  have h3r : ¬ (3 : Nat) = c := fun h => h3 h.symm
  simp only [draw_references_info]
  by_cases hP : refs.length > sections_footer - sections_references - 2
  · simp only [hP, if_true]
    rw [writesAt_append, writesAt_append,
      writesAt_ref_entry_ops_col _ _ _ _ _ h3 h5]
    simp [writesAt, opWriteAt, hr, h3r]
  · simp only [hP, if_false]
    rw [writesAt_append, writesAt_append,
      writesAt_ref_entry_ops_col _ _ _ _ _ h3 h5]
    simp [writesAt, opWriteAt, hr, h3r]

theorem writesAt_hover_branch_ne (hov : Option (List String)) (r c : Nat)
    (hr : ¬ sections_hover_start = r) (hc : c ≠ 3) :
    writesAt (match hov with
              | some h => if h.isEmpty then clear_hover_region else draw_hover_info h
              | none => clear_hover_region) r c = [] := by
  cases hov with
  | none => exact writesAt_clear_hover_region r c
  | some h =>
      by_cases hh : h.isEmpty <;>
        simp [hh, writesAt_clear_hover_region, writesAt_draw_hover_info_ne h r c hr hc]

theorem writesAt_definition_branch_ne (d : Option LocDict) (r c : Nat)
    (h : ¬ sections_definition = r) :
    writesAt (match d with
              | some dd => draw_definition_info dd
              | none => ([] : List Op)) r c = [] := by
  cases d with
  | none => rfl
  | some dd => exact writesAt_draw_definition_info_ne dd r c h

theorem writesAt_draw_references_title (refs : List LocDict) (count : Int) :
    writesAt (draw_references_info refs count) sections_references 1
      = ["🔗 References (" ++ toString count ++ " "
         ++ (if count = 1 then "reference" else "references") ++ " found):"] := by
  simp only [draw_references_info]
  by_cases hP : refs.length > sections_footer - sections_references - 2
  · simp only [hP, if_true]
    rw [writesAt_append, writesAt_append,
      writesAt_ref_entry_ops_col _ _ _ _ _ (by decide) (by decide)]
    simp [writesAt, opWriteAt, sections_references, sections_footer, height]
  · simp only [hP, if_false]
    rw [writesAt_append, writesAt_append,
      writesAt_ref_entry_ops_col _ _ _ _ _ (by decide) (by decide)]
    simp [writesAt, opWriteAt]

theorem writesAt_draw_definition_loc (d : LocDict) :
    writesAt (draw_definition_info d) sections_definition (1 + ("📍 Defined in: ").length)
      = (if d.isEmpty then []
         else [d.file.getD "Unknown" ++ ":" ++ toString (d.line.getD 0)
               ++ ":" ++ toString (d.col.getD 0)]) := by
  by_cases hd : d.isEmpty
  · simp [draw_definition_info, hd, writesAt]
  · have hlen : ("📍 Defined in: ").length = 14 := rfl
    simp [draw_definition_info, hd, writesAt, opWriteAt, List.filterMap_cons, hlen]

theorem writesAt_references_branch_ne (refs : Option (List LocDict)) (rc : Option Int)
    (r c : Nat) (hr : ¬ sections_references = r) (h3 : c ≠ 3) (h5 : c ≠ 5) :
    writesAt (match refs with
              | some rs => draw_references_info rs (rc.getD (rs.length : Int))
              | none => ([] : List Op)) r c = [] := by
  cases refs with
  | none => rfl
  | some rs => exact writesAt_draw_references_info_ne rs _ r c hr h3 h5

/-! ### Row ranges of each component's operations -/

theorem draw_header_row_mem (t : String) (op : Op) (h : op ∈ draw_header t) :
    opRow op = sections_header ∨ opRow op = sections_header + 1 := by
  simp only [draw_header, draw_border, List.mem_append, List.mem_cons,
    List.not_mem_nil, or_false] at h
  rcases h with (rfl | rfl | rfl) | rfl <;> simp [opRow]

theorem draw_file_info_row_mem (s : Snapshot) (op : Op) (h : op ∈ draw_file_info s) :
    opRow op = sections_file_info := by
  simp only [draw_file_info, List.mem_cons, List.not_mem_nil, or_false] at h
  rcases h with rfl | rfl | rfl | rfl <;> simp [opRow]

theorem draw_footer_row_mem (op : Op) (h : op ∈ draw_footer) :
    opRow op = sections_footer := by
  simp only [draw_footer, List.mem_cons, List.not_mem_nil, or_false] at h
  subst h
  simp [opRow]

theorem clear_hover_region_row_mem (op : Op) (h : op ∈ clear_hover_region) :
    sections_hover_start ≤ opRow op ∧ opRow op < sections_definition := by
  simp only [clear_hover_region, List.mem_map] at h
  obtain ⟨i, hi, rfl⟩ := h
  rw [List.mem_range'_1] at hi
  simp only [opRow, sections_hover_start, sections_definition] at *
  omega

theorem draw_hover_info_row_mem (hd : List String) (op : Op) (h : op ∈ draw_hover_info hd) :
    sections_hover_start ≤ opRow op ∧ opRow op < sections_definition := by
  simp only [draw_hover_info, List.mem_append, List.mem_cons,
    List.not_mem_nil, or_false] at h
  rcases h with ((rfl | rfl) | h) | h
  · simp [opRow, sections_hover_start, sections_definition]
  · simp [opRow, sections_hover_start, sections_definition]
  · have hb := hover_line_ops_row_bound _ _ _ _ _ h
    have hlen := List.length_take_le (sections_definition - sections_hover_start - 2) hd
    simp only [sections_hover_start, sections_definition] at *
    omega
  · obtain ⟨i, hi, rfl⟩ := List.mem_map.mp h
    rw [List.mem_range'_1] at hi
    simp only [opRow, sections_hover_start, sections_definition] at *
    omega

theorem draw_references_info_row_mem (refs : List LocDict) (count : Int) (op : Op)
    (h : op ∈ draw_references_info refs count) :
    sections_references ≤ opRow op
      ∧ opRow op ≤ sections_references + (sections_footer - sections_references - 2) + 1 := by
  simp only [draw_references_info, List.mem_append] at h
  rcases h with (h | h) | h
  · simp only [List.mem_cons, List.not_mem_nil, or_false] at h
    rcases h with rfl | rfl <;>
      · simp only [opRow, sections_references, sections_footer, height]
        omega
  · have hb := ref_entry_ops_row_bound _ _ _ _ h
    have hlen := List.length_take_le (sections_footer - sections_references - 2) refs
    simp only [sections_references, sections_footer, height] at *
    omega
  · by_cases hP : refs.length > sections_footer - sections_references - 2
    · simp only [hP, if_true, List.mem_cons, List.not_mem_nil, or_false] at h
      rcases h with rfl | rfl <;>
        · simp only [opRow, sections_references, sections_footer, height]
          omega
    · simp only [hP, if_false] at h
      exact absurd h (List.not_mem_nil op)

theorem update_display_avoids_def_row (s : Snapshot) (t : String)
    (hdef : (match s.definition with
             | some dd => draw_definition_info dd
             | none => ([] : List Op)) = []) :
    ∀ op ∈ update_display s t, opRow op ≠ sections_definition ∧ 1 ≤ opRow op := by
  intro op hop
  simp only [update_display] at hop
  rw [hdef] at hop
  simp only [List.mem_append, List.not_mem_nil, or_false] at hop
  rcases hop with (((h | h) | h) | h) | h
  · rcases draw_header_row_mem t op h with h1 | h1 <;>
      · simp only [h1, sections_header, sections_definition]
        omega
  · have h1 := draw_file_info_row_mem _ op h
    simp only [h1, sections_file_info, sections_definition]
    omega
  · have h1 : sections_hover_start ≤ opRow op ∧ opRow op < sections_definition := by
      cases hs : s.hover with
      | none => rw [hs] at h; exact clear_hover_region_row_mem op h
      | some hl =>
          rw [hs] at h
          by_cases he : hl.isEmpty
          · simp only [he, if_true] at h
            exact clear_hover_region_row_mem op h
          · simp only [he, if_false] at h
            exact draw_hover_info_row_mem hl op h
    simp only [sections_hover_start, sections_definition] at h1 ⊢
    omega
  · have h1 : sections_references ≤ opRow op
        ∧ opRow op ≤ sections_references + (sections_footer - sections_references - 2) + 1 := by
      cases hs : s.references with
      | none => rw [hs] at h; exact absurd h (List.not_mem_nil op)
      | some rs => rw [hs] at h; exact draw_references_info_row_mem rs _ op h
    simp only [sections_references, sections_footer, sections_definition, height] at h1 ⊢
    omega
  · have h1 := draw_footer_row_mem op h
    simp only [h1, sections_footer, sections_definition, height]
    omega

/-! ### Claim theorems -/

/-- C1: the claim that every screen row written by a first snapshot's
hover/references rendering and not rewritten by the next snapshot's
rendering is blank after the second redraw is refuted by the code: with
`snap_two_refs` rendered and then `snap_one_ref` (fewer reference entries),
the second reference-entry row (row `sections_references + 2`) is written
by the first rendering, is touched by no operation of the second rendering,
and still shows the first snapshot's entry — not spaces — after the second
redraw.  The hover section clears its leftover rows, but
`draw_references_info` has no such clearing loop and `update_display` never
clears the references region. -/
theorem update_display_stale_reference_row :
    ((update_display snap_two_refs "12:00:00").filter
        (fun op => opRow op == sections_references + 2)) ≠ []
    ∧ ((update_display snap_one_ref "12:00:00").filter
        (fun op => opRow op == sections_references + 2)) = []
    ∧ rowOf screen_after_second (sections_references + 2)
        = rowOf screen_after_first (sections_references + 2)
    ∧ rowOf screen_after_first (sections_references + 2) ≠ blank_row :=
  ⟨by decide, by decide, by decide, by decide⟩

/-- C2 (counterexample): a message whose bytes are not valid UTF-8 is not
discarded with the connection kept open — `decode('utf-8')` raises
`UnicodeDecodeError`, which `except json.JSONDecodeError` does not catch,
so the step is `uncaught` (connection closed, listener loop dead) and a
following well-formed update message is never processed. -/
theorem listener_malformed_bytes_kill :
    handle_message {} RecvMsg.bytesNotUtf8 ≠ MsgStep.continueLoop {} false
    ∧ serve_conn {} [RecvMsg.bytesNotUtf8,
        RecvMsg.jsonObj (some "context_update") (some {})] = none := by
  decide

/-- C2 (amended): a message that is valid UTF-8 but fails JSON parsing is
discarded individually — the held snapshot is unchanged, no redraw happens,
the connection stays open and the following messages are processed exactly
as if the malformed one had not arrived; a well-formed JSON object without
the `context_update` tag likewise changes nothing, and a tagged update
replaces the held snapshot.  A message with invalid UTF-8 bytes, or whose
JSON decodes to a non-object, instead raises an uncaught exception that
ends the connection and the listener loop (only the listener dies; the
control loop's Session keeps running). -/
theorem listener_decode_robustness_amended (held : Snapshot) (ms : List RecvMsg)
    (t : Option String) (dd : Option Snapshot) :
    serve_conn held (RecvMsg.textNotJson :: ms) = serve_conn held ms
    ∧ handle_message held RecvMsg.textNotJson = MsgStep.continueLoop held false
    ∧ (t ≠ some "context_update" →
        handle_message held (RecvMsg.jsonObj t dd) = MsgStep.continueLoop held false)
    ∧ handle_message held (RecvMsg.jsonObj (some "context_update") dd)
        = MsgStep.continueLoop (dd.getD {}) true
    ∧ handle_message held RecvMsg.bytesNotUtf8 = MsgStep.uncaught
    ∧ handle_message held RecvMsg.jsonNonObject = MsgStep.uncaught := by
  refine ⟨rfl, rfl, ?_, ?_, rfl, rfl⟩
  · intro h
    simp [handle_message, h]
  · simp [handle_message]

/-- C2 (witness): the amended robustness theorem applied at a concrete
non-update message. -/
theorem listener_decode_robustness_witness :
    (some "cursor_moved" : Option String) ≠ some "context_update"
    ∧ handle_message {} (RecvMsg.jsonObj (some "cursor_moved") none)
        = MsgStep.continueLoop {} false :=
  ⟨by decide,
   (listener_decode_robustness_amended {} [] (some "cursor_moved") none).2.2.1 (by decide)⟩

/-- C3: with capacity `K = footerRow - referencesRow - 2`,
`draw_references_info` renders exactly the first `min L K` entries (so
exactly `K` when `L > K`, all `L` when `L ≤ K`), and the
`"... and {L-K} more"` summary line — one single write on the summary row —
appears exactly when `L > K`, with the exact remainder. -/
theorem references_truncation (refs : List LocDict) (count : Int) :
    writesAtCol (draw_references_info refs count) 5
      = (refs.take (sections_footer - sections_references - 2)).map
          (fun ref => ref.file.getD "Unknown" ++ ":" ++ toString (ref.line.getD 0))
    ∧ writesAt (draw_references_info refs count)
        (sections_references + (sections_footer - sections_references - 2) + 1) 3
      = (if refs.length > sections_footer - sections_references - 2 then
           ["... and " ++ toString (refs.length - (sections_footer - sections_references - 2))
            ++ " more"]
         else []) := by
  constructor
  · simp only [draw_references_info]
    rw [writesAtCol_append, writesAtCol_append, writesAtCol_ref_entry_ops]
    by_cases hP : refs.length > sections_footer - sections_references - 2
    · simp [hP, writesAtCol, opWriteAtCol]
    · simp [hP, writesAtCol, opWriteAtCol]
  · simp only [draw_references_info]
    rw [writesAt_append, writesAt_append]
    rw [writesAt_ref_entry_ops_row _ _ _ _ _ ?hlen]
    case hlen =>
      have := List.length_take_le (sections_footer - sections_references - 2) refs
      simp only [sections_references, sections_footer, height] at this ⊢
      omega
    simp only [sections_references, sections_footer, height]
    by_cases hP : 5 < refs.length
    · simp [hP, writesAt, opWriteAt]
    · simp [hP, writesAt, opWriteAt]

/-- C4: for every snapshot with a `references` key, the references title
line displays `count = references_count if present else len(references)`
and uses the singular word "reference" exactly when that count equals `1`,
"references" otherwise — independent of the sequence's actual length. -/
theorem references_title_pluralization (f : Option String) (l c : Option Int)
    (hov : Option (List String)) (d : Option LocDict) (refs : List LocDict)
    (rc : Option Int) (t : String) :
    writesAt (update_display ⟨f, l, c, hov, d, some refs, rc⟩ t) sections_references 1
      = ["🔗 References (" ++ toString (rc.getD (refs.length : Int)) ++ " "
         ++ (if rc.getD (refs.length : Int) = 1 then "reference" else "references")
         ++ " found):"] := by
  simp only [update_display]
  rw [writesAt_append, writesAt_append, writesAt_append, writesAt_append, writesAt_append]
  rw [writesAt_draw_header_ne _ _ _ (by decide) (by decide),
    writesAt_draw_file_info_ne _ _ _ (by decide),
    writesAt_hover_branch_ne _ _ _ (by decide) (by decide),
    writesAt_definition_branch_ne _ _ _ (by decide),
    writesAt_draw_footer_ne _ _ (by decide),
    writesAt_draw_references_title]
  simp

/-- C5: `draw_hover_info` writes at most
`sections_definition - sections_hover_start - 2` content lines, and each
written line is exactly `line[:width - 4]` — a hard cut to the first
`width - 4` characters on a single row, never a wrap. -/
theorem draw_hover_truncation (hover_data : List String) :
    writesAtCol (draw_hover_info hover_data) 3
      = (hover_data.take (sections_definition - sections_hover_start - 2)).map
          (fun line => line.take (width - 4))
    ∧ (writesAtCol (draw_hover_info hover_data) 3).length
        ≤ sections_definition - sections_hover_start - 2 := by
  have h1 : writesAtCol (draw_hover_info hover_data) 3
      = (hover_data.take (sections_definition - sections_hover_start - 2)).map
          (fun line => line.take (width - 4)) := by
    simp only [draw_hover_info]
    rw [writesAtCol_append, writesAtCol_append, writesAtCol_hover_line_ops,
      writesAtCol_map_clearLine]
    simp [writesAtCol, opWriteAtCol]
  refine ⟨h1, ?_⟩
  rw [h1, List.length_map]
  exact List.length_take_le _ _

/-- C6: on every way out of the `try` body of `run` — interrupt-driven
shutdown, an error during setup, or an unexpected runtime error — the
`finally` teardown executes: the cursor is shown, the normal screen buffer
is restored, styling is reset, the socket is closed exactly when one was
created, and the `os.unlink` of the socket's backing path is invoked. -/
theorem run_teardown_on_every_exit (trigger : ExitTrigger) (socketCreated : Bool) :
    TermAction.showCursor ∈ (run trigger socketCreated).1
    ∧ TermAction.normalScreen ∈ (run trigger socketCreated).1
    ∧ TermAction.resetStyle ∈ (run trigger socketCreated).1
    ∧ (socketCreated = true → TermAction.closeSocket ∈ (run trigger socketCreated).1)
    ∧ TermAction.unlinkSocketPath ∈ (run trigger socketCreated).1 := by
  cases trigger <;> cases socketCreated <;> decide

/-- C6 (witness): teardown on an interrupt with a created socket. -/
theorem run_teardown_witness :
    (true : Bool) = true
    ∧ TermAction.closeSocket ∈ (run ExitTrigger.interrupt true).1 :=
  ⟨rfl, (run_teardown_on_every_exit ExitTrigger.interrupt true).2.2.2.1 rfl⟩

/-- C7: the process exits `0` on interrupt-driven shutdown (the
`KeyboardInterrupt` is caught inside `run` and `main` falls through), and
`1` on an uncaught startup or runtime error, in which case the error
message is written to the diagnostic stream (`main`'s `except Exception`
handler). -/
theorem process_exit_codes (socketCreated : Bool) :
    main_exit ExitTrigger.interrupt socketCreated = (0, false)
    ∧ main_exit ExitTrigger.setupError socketCreated = (1, true)
    ∧ main_exit ExitTrigger.runtimeError socketCreated = (1, true) := by
  cases socketCreated <;> decide

/-- C8: a redraw of a snapshot without a present definition (key absent, or
present as a falsy empty dict) leaves the definition row of any prior
screen completely untouched, and when a non-empty definition dict is
present, the single location write on the definition row is exactly
`file:line:col`. -/
theorem definition_row_skip_or_format (f : Option String) (l c : Option Int)
    (hov : Option (List String)) (refs : Option (List LocDict)) (rc : Option Int)
    (t : String) (d : LocDict) (scr : List (List Char)) :
    rowOf (applyOps scr (update_display ⟨f, l, c, hov, none, refs, rc⟩ t)) sections_definition
        = rowOf scr sections_definition
    ∧ rowOf (applyOps scr (update_display ⟨f, l, c, hov, some {}, refs, rc⟩ t)) sections_definition
        = rowOf scr sections_definition
    ∧ writesAt (update_display ⟨f, l, c, hov, some d, refs, rc⟩ t) sections_definition
        (1 + ("📍 Defined in: ").length)
      = (if d.isEmpty then []
         else [d.file.getD "Unknown" ++ ":" ++ toString (d.line.getD 0)
               ++ ":" ++ toString (d.col.getD 0)]) := by
  refine ⟨?_, ?_, ?_⟩
  · exact rowOf_applyOps_ne _ scr _
      (update_display_avoids_def_row _ t rfl) (by decide)
  · exact rowOf_applyOps_ne _ scr _
      (update_display_avoids_def_row _ t rfl) (by decide)
  · simp only [update_display]
    rw [writesAt_append, writesAt_append, writesAt_append, writesAt_append, writesAt_append]
    rw [writesAt_draw_header_ne _ _ _ (by decide) (by decide),
      writesAt_draw_file_info_ne _ _ _ (by decide),
      writesAt_hover_branch_ne _ _ _ (by decide) (by decide),
      writesAt_references_branch_ne _ _ _ _ (by decide) (by decide) (by decide),
      writesAt_draw_footer_ne _ _ (by decide),
      writesAt_draw_definition_loc]
    simp

/-- C9 (counterexample): the footer write is not exactly `width` columns
wide — `draw_footer` emits one write of `2 * ((width - 69) / 2) + 69 = 79`
characters, so the claimed total written width of exactly `W = 80` is
false. -/
theorem draw_footer_width_cex :
    (writesAt draw_footer sections_footer 1).map String.length ≠ [width] := by
  decide

/-- C9 (amended): `draw_footer` centers the fixed help string with
`(width - len) / 2` spaces of padding on each side — the two paddings are
equal, not differing by one — and since the leftover space
`width - len = 11` is odd, the total written width is `width - 1 = 79`; the
final column of the footer row is never written. -/
theorem draw_footer_centering_amended :
    writesAt draw_footer sections_footer 1
      = [String.mk (List.replicate ((width - footer_text.length) / 2) ' ') ++ footer_text
         ++ String.mk (List.replicate ((width - footer_text.length) / 2) ' ')]
    ∧ (writesAt draw_footer sections_footer 1).map String.length = [width - 1]
    ∧ (width - footer_text.length) % 2 = 1 := by
  refine ⟨by decide, by decide, by decide⟩

/-- C10: two snapshots identical except for `references_count` produce
operation lists that agree on every row other than the references title
row — in particular the reference entry rows and the presence and text of
the summary line are identical; the count influences only the title
line. -/
theorem references_count_noninterference (f : Option String) (l c : Option Int)
    (hov : Option (List String)) (d : Option LocDict) (refs : List LocDict)
    (rc1 rc2 : Option Int) (t : String) :
    (update_display ⟨f, l, c, hov, d, some refs, rc1⟩ t).filter
        (fun op => opRow op != sections_references)
      = (update_display ⟨f, l, c, hov, d, some refs, rc2⟩ t).filter
        (fun op => opRow op != sections_references) := by
  have key : ∀ c1 c2 : Int,
      (draw_references_info refs c1).filter (fun op => opRow op != sections_references)
        = (draw_references_info refs c2).filter (fun op => opRow op != sections_references) := by
    intro c1 c2
    simp [draw_references_info, List.filter_append, opRow]
  have hfi : draw_file_info ⟨f, l, c, hov, d, some refs, rc1⟩
      = draw_file_info ⟨f, l, c, hov, d, some refs, rc2⟩ := rfl
  simp only [update_display]
  rw [List.filter_append, List.filter_append, List.filter_append, List.filter_append,
    List.filter_append, List.filter_append, List.filter_append, List.filter_append,
    List.filter_append, List.filter_append]
  rw [key (rc1.getD (refs.length : Int)) (rc2.getD (refs.length : Int)), hfi]
